import Mathlib

/-!
Verification of the silentcmd signal-to-decision pipeline.

The Rust sources embedded here are:
* `src/switch.rs` — the `SwitchStatus` hysteresis/timeout state machine and the
  action-dispatcher worker thread;
* `src/alsa_detect.rs` — the 16-bit and 32-bit de-interleaving (channel mixer)
  loops and `process_buf`;
* `src/jack_plugin.rs` / `src/wav_detect.rs` — front ends sharing `process_buf`
  and the per-block loop shape.

Floating-point `f32` values are modelled as rationals (`ℚ`): the switch logic
only compares and subtracts levels and times, operations on which `f32` agrees
with exact arithmetic for the representable, non-NaN values involved.  `Instant`
and `Duration` are modelled as integers (`ℤ`, an exact image of their integer
nanosecond representations); `Instant::now()` becomes an explicit `now`
argument.  The `common.rs` module (declared `pub mod common` by
all three front ends) is absent from the sources, so `common::to_db` and the
envelope detector of the external `sample` crate are modelled from the spec
where a claim needs them, over `ℝ`.
-/

namespace SilentCmd

/-- State of `SwitchStatus` (src/switch.rs lines 6-12).  The `tx` channel field
is represented by returning the sent boolean as an explicit event instead. -/
structure SwitchStatus where
  threshold_db : ℚ
  timeout_s : ℤ
  on_trigger_last : ℤ
  is_on : Bool
  deriving DecidableEq

/-- Constructor `SwitchStatus::new` (src/switch.rs lines 15-23); `now` is the
`Instant::now()` taken at construction. -/
def SwitchStatus.new (threshold_db : ℚ) (timeout_s : ℤ) (now : ℤ) : SwitchStatus :=
  { threshold_db := threshold_db
    timeout_s := timeout_s
    on_trigger_last := now
    is_on := false }

/-- Method `SwitchStatus::turn_on` (src/switch.rs lines 55-59): sends `true` on the
channel and sets `is_on`. -/
def SwitchStatus.turn_on (s : SwitchStatus) : SwitchStatus × Option Bool :=
  ({ s with is_on := true }, some true)

/-- Method `SwitchStatus::turn_off` (src/switch.rs lines 61-65): sends `false` on the
channel and clears `is_on`. -/
def SwitchStatus.turn_off (s : SwitchStatus) : SwitchStatus × Option Bool :=
  ({ s with is_on := false }, some false)

/-- Method `SwitchStatus::update_level` (src/switch.rs lines 39-49).  Both calls of
`Instant::now()` inside the body are the explicit `now` argument; the emitted
channel message, if any, is returned alongside the new state. -/
def SwitchStatus.update_level (s : SwitchStatus) (level : ℚ) (now : ℤ) :
    SwitchStatus × Option Bool :=
  if s.threshold_db ≤ level then
    let s' := { s with on_trigger_last := now }
    if s'.is_on = false then s'.turn_on else (s', none)
  else if s.is_on = true ∧ s.timeout_s < now - s.on_trigger_last then
    s.turn_off
  else
    (s, none)

/-- Modelled from the spec: the transition table of section 4.4 as written
(claim C1's description of `update_level`), to be compared with the
transcription `SwitchStatus.update_level` above. -/
def update_level_claim (s : SwitchStatus) (level : ℚ) (now : ℤ) :
    SwitchStatus × Option Bool :=
  if level ≥ s.threshold_db then
    if s.is_on = true then ({ s with on_trigger_last := now }, none)
    else ({ s with on_trigger_last := now, is_on := true }, some true)
  else if s.is_on = true ∧ now - s.on_trigger_last > s.timeout_s then
    ({ s with is_on := false }, some false)
  else
    (s, none)

/-- The producer loop's effect on the switch state: folding `update_level` over
a list of `(level_db, now)` inputs and keeping only the state (the front ends
call `switch.update_level(db)` once per processed block). -/
def stateAfter (s : SwitchStatus) (inputs : List (ℚ × ℤ)) : SwitchStatus :=
  inputs.foldl (fun s i => (s.update_level i.1 i.2).1) s

/-- The producer loop's full trace: folding `update_level` over a list of
`(level_db, now)` inputs, collecting the booleans sent on the dispatcher
channel in order. -/
def run (s : SwitchStatus) : List (ℚ × ℤ) → SwitchStatus × List Bool
  | [] => (s, [])
  | x :: rest =>
    let st := s.update_level x.1 x.2
    let r := run st.1 rest
    (r.1, st.2.toList ++ r.2)

/-- Non-decreasing timestamps, as an executable check: the hypothesis claim C5
places on its input sequences. -/
def timesMonotone : List (ℚ × ℤ) → Bool
  | [] => true
  | [_] => true
  | x :: y :: rest => decide (x.2 ≤ y.2) && timesMonotone (y :: rest)

/-- A concrete input sequence for instantiating claim C5: one block above
threshold 0 at time 1, then sub-threshold blocks at times 2 and 8 against
timeout 5, so the off event fires at the third block. -/
def c5Inputs : List (ℚ × ℤ) := [(1, 1), (-1, 2), (-1, 8)]

/-!
Action dispatcher: `SwitchStatus::start` (src/switch.rs lines 25-37) spawns one
worker thread that drains the `mpsc` receiver in arrival order.  `std::sync::mpsc`
is a FIFO queue, so the sequential loop below, fed the sent booleans in order,
is the worker's exact behaviour.  Spawning a command either fails to start
(`spawn()` returns `Err`, the `expect` panics and the worker thread dies) or
starts and is waited to completion, yielding an exit code the loop ignores.
Commands are an abstract type `α` (the two configured command strings).
-/

/-- One observable step of the dispatcher worker. -/
inductive WorkerStep (α : Type) where
  | spawned (cmd : α)
  | exited (cmd : α) (code : Int)
  | panicked
  deriving DecidableEq

/-- The worker loop of `SwitchStatus::start`: for each queued boolean, pick
`cmd_on` or `cmd_off`, spawn it (`none` = failure to start, which panics the
thread and ends the loop), else wait for its exit code and continue. -/
def runWorker {α : Type} (spawnResult : α → Option Int) (cmd_on cmd_off : α) :
    List Bool → List (WorkerStep α)
  | [] => []
  | state :: rest =>
    let cmd := if state then cmd_on else cmd_off
    match spawnResult cmd with
    | none => [WorkerStep.panicked]
    | some code =>
      WorkerStep.spawned cmd :: WorkerStep.exited cmd code ::
        runWorker spawnResult cmd_on cmd_off rest

/-- The producer-side `tx.send(b).unwrap()` in `turn_on`/`turn_off` (src/switch.rs lines 57, 63):
per `std::sync::mpsc`, `send` returns `Err` exactly when the receiver has been
dropped — which happens when the worker thread panics out of its `for` loop —
and `unwrap` then panics the producer thread.  `Except.error` models that
panic; `Except.ok` is a successful hand-off of the boolean. -/
def sendUnwrap (receiverAlive : Bool) (b : Bool) : Except Unit Bool :=
  if receiverAlive then Except.ok b else Except.error ()

/-!
Channel mixer: the de-interleaving loops of `src/alsa_detect.rs` (16-bit path
lines 110-121, 32-bit path lines 136-143).  Machine integers are `ℤ` with
explicit wrapping where Rust wraps; the values involved (sums of up to
`channel_count` samples in an accumulator two sizes wider) cannot overflow the
accumulator, so the accumulator itself is exact.  The `sample` crate's
conversions used on the 16-bit path are `i32 → i16` = arithmetic shift right by
16 bits and `i16 → i32` = shift left by 16 bits.
-/

/-- The `sample` crate's `i32.to_sample::<i16>()`: arithmetic shift right by 16 bits
(floor division by 65536). -/
def i32_to_i16_sample (v : ℤ) : ℤ := Int.fdiv v 65536

/-- The `sample` crate's `i16.to_sample::<i32>()`: shift left by 16 bits. -/
def i16_to_i32_sample (v : ℤ) : ℤ := v * 65536

/-- Rust `as i32` cast: wrap into the signed 32-bit range. -/
def as_i32 (v : ℤ) : ℤ := (v + 2147483648) % 4294967296 - 2147483648

/-- 16-bit de-interleave (src/alsa_detect.rs lines 110-121): for each frame
`i`, sum the `i16` samples of the channels whose 1-based index is in
`channels` into an `i32` accumulator, divide by `channel_count` (`i32`
truncating division), and pass the result through
`.to_sample::<i16>().to_sample::<i32>()`. -/
def deinterleave16 (channels : List ℕ) (channel_count buf_size : ℕ)
    (rec_buf : List ℤ) : List ℤ :=
  (List.range buf_size).map (fun i =>
    let val : ℤ := ((List.range channel_count).map (fun c =>
      if (c + 1) ∈ channels then rec_buf.getD (i * channel_count + c) 0 else 0)).sum
    i16_to_i32_sample (i32_to_i16_sample (Int.tdiv val channel_count)))

/-- 32-bit de-interleave (src/alsa_detect.rs lines 136-143): for each frame
`i`, sum the `i32` samples of ALL channels (no membership test on `channels`
in this path) into an `i64` accumulator, divide by `channel_count` (`i64`
truncating division) and cast `as i32`. -/
def deinterleave32 (channel_count buf_size : ℕ) (rec_buf : List ℤ) : List ℤ :=
  (List.range buf_size).map (fun i =>
    let val : ℤ := ((List.range channel_count).map (fun c =>
      rec_buf.getD (i * channel_count + c) 0)).sum
    as_i32 (Int.tdiv val channel_count))

/-!
Envelope window.  `ring_buffer::Fixed::from(vec![[0.0]; buf_size])` is a
fixed-length window; pushing a value evicts the oldest element and appends the
new one.  With the `sample` crate's RMS detector the window holds squared
magnitudes (spec section 4.2, step 1).  `common.rs` being absent from the
sources, the detector internals are modelled from the spec where needed.
-/

/-- A push into the fixed-length ring buffer: evict the oldest element, append
the new one. -/
def windowPush (w : List ℚ) (x : ℚ) : List ℚ := w.drop 1 ++ [x]

/-- Modelled from the spec (section 4.2 step 1, for the external `sample`
crate's RMS detector): folding a block through the window pushes the square of
each incoming mono sample. -/
def windowAfterBlock (w : List ℚ) (block : List ℚ) : List ℚ :=
  block.foldl (fun w s => windowPush w (s * s)) w

/-- The capture loops (src/alsa_detect.rs lines 102-151, src/jack_plugin.rs
lines 62-70): `ring_buffer` is allocated once before the loop and never
rebound; every iteration calls `process_buf(.., ring_buffer.clone(), ..)`, so
the window handed to the k-th block is always the pristine startup buffer
`w0`.  This returns the window supplied to each successive block. -/
def mainLoopWindows (w0 : List ℚ) : List (List ℚ) → List (List ℚ)
  | [] => []
  | _block :: rest => w0 :: mainLoopWindows w0 rest

/-- Modelled from the spec's words for claim C3: the window supplied to each
block is the window as the previous block left it (state carried over, never
reset). -/
def persistentWindows (w0 : List ℚ) : List (List ℚ) → List (List ℚ)
  | [] => []
  | block :: rest => w0 :: persistentWindows (windowAfterBlock w0 block) rest

/-- Modelled from the spec (section 4.2 step 2, `sample` crate RMS detector):
windowed RMS = square root of the mean of the window's (squared) contents; on
an empty window the mean is `0 / 0 = 0` and the RMS is `0`. -/
noncomputable def windowRms (w : List ℝ) : ℝ := Real.sqrt (w.sum / w.length)

/-- Modelled from the spec (section 4.2 steps 1-4): one sample through the
detector — push the squared sample, take windowed RMS, blend with the held
envelope using the attack coefficient `gA` when rising and the release
coefficient `gR` otherwise. -/
noncomputable def envStep (gA gR : ℝ) (st : List ℝ × ℝ) (x : ℝ) : List ℝ × ℝ :=
  let w := st.1.drop 1 ++ [x * x]
  let rms := windowRms w
  let coeff := if st.2 < rms then gA else gR
  (w, coeff * st.2 + (1 - coeff) * rms)

/-- Iteration `frame.detect_envelope(detector).until_exhausted()`: one envelope frame per
input sample. -/
noncomputable def envFrames (gA gR : ℝ) (st : List ℝ × ℝ) : List ℝ → List ℝ
  | [] => []
  | x :: rest => (envStep gA gR st x).2 :: envFrames gA gR (envStep gA gR st x) rest

/-- Function `process_buf` (src/alsa_detect.rs lines 154-173, src/jack_plugin.rs lines
86-105, and the loop body of src/wav_detect.rs lines 86-96): build a fresh
detector over the given ring buffer and held value, run the block through it,
and take `envelope.until_exhausted().last().unwrap()`.  `none` models the
`unwrap` panic when the iterator yields nothing. -/
noncomputable def process_buf (gA gR : ℝ) (w0 : List ℝ) (held0 : ℝ)
    (rec_buf : List ℝ) : Option ℝ :=
  (envFrames gA gR (w0, held0) rec_buf).getLast?

/-- Modelled from the spec (section 4.3): the very large negative finite
sentinel `db(0)` evaluates to; `common.rs` is absent from the sources, so the
concrete value is a model choice. -/
noncomputable def db_sentinel : ℝ := -1000

/-- Modelled from the spec (section 4.3): `common::to_db`, declared by all
three front ends via `pub mod common` but absent from the sources —
`db(amplitude) = 20 * log10(amplitude)` for positive amplitude, and the finite
negative sentinel at `0`. -/
noncomputable def to_db (amplitude : ℝ) : ℝ :=
  if 0 < amplitude then 20 * Real.logb 10 amplitude else db_sentinel

/-- Claim C1: every call of `update_level` follows the spec's transition table:
at or above threshold it rearms `last_trigger_time = now` and turns on (emitting
`true`) exactly when the state was off; below threshold it turns off (emitting
`false`) exactly when the state was on and `now - last_trigger_time > timeout`;
otherwise nothing changes and no event is emitted.  At most one event per call
and determinism are inherent in the result type `SwitchStatus × Option Bool` of
the pure function. -/
theorem c1_update_level_matches_transition_table (s : SwitchStatus) (level : ℚ) (now : ℤ) :
    s.update_level level now = update_level_claim s level now := by
  unfold SwitchStatus.update_level update_level_claim SwitchStatus.turn_on
    SwitchStatus.turn_off
  split_ifs <;> simp_all

/-- Updates by `update_level` never touch the threshold or the timeout. -/
lemma update_level_fields (s : SwitchStatus) (level : ℚ) (now : ℤ) :
    (s.update_level level now).1.threshold_db = s.threshold_db ∧
    (s.update_level level now).1.timeout_s = s.timeout_s := by
  unfold SwitchStatus.update_level SwitchStatus.turn_on SwitchStatus.turn_off
  dsimp only
  split_ifs <;> simp

/-- At or above threshold, `update_level` rearms the trigger time and leaves the
switch on. -/
lemma update_level_above (s : SwitchStatus) (level : ℚ) (now : ℤ)
    (h : s.threshold_db ≤ level) :
    (s.update_level level now).1.on_trigger_last = now ∧
    (s.update_level level now).1.is_on = true := by
  unfold SwitchStatus.update_level SwitchStatus.turn_on
  dsimp only
  split_ifs <;> simp_all

/-- Below threshold, `update_level` keeps the trigger time, and the switch can
end up on only if it already was. -/
lemma update_level_below (s : SwitchStatus) (level : ℚ) (now : ℤ)
    (h : ¬ s.threshold_db ≤ level) :
    (s.update_level level now).1.on_trigger_last = s.on_trigger_last ∧
    ((s.update_level level now).1.is_on = true → s.is_on = true) := by
  unfold SwitchStatus.update_level SwitchStatus.turn_on SwitchStatus.turn_off
  dsimp only
  split_ifs <;> simp_all

/-- An off event is emitted only when the level is below threshold, the switch
was on, the timeout has elapsed since the last trigger, and the switch ends up
off. -/
lemma update_level_off_event (s : SwitchStatus) (level : ℚ) (now : ℤ)
    (h : (s.update_level level now).2 = some false) :
    level < s.threshold_db ∧ s.is_on = true ∧
    s.timeout_s < now - s.on_trigger_last ∧
    (s.update_level level now).1.is_on = false := by
  unfold SwitchStatus.update_level SwitchStatus.turn_on SwitchStatus.turn_off at *
  dsimp only at h ⊢
  split_ifs at h ⊢ with h1 h2 h3 <;> simp_all [not_le]

/-- An on event is emitted only when the switch was off, and it ends up on. -/
lemma update_level_on_event (s : SwitchStatus) (level : ℚ) (now : ℤ)
    (h : (s.update_level level now).2 = some true) :
    s.is_on = false ∧ (s.update_level level now).1.is_on = true := by
  unfold SwitchStatus.update_level SwitchStatus.turn_on SwitchStatus.turn_off at *
  dsimp only at h ⊢
  split_ifs at h ⊢ with h1 h2 h3 <;> simp_all

/-- With no event, `is_on` is unchanged. -/
lemma update_level_no_event (s : SwitchStatus) (level : ℚ) (now : ℤ)
    (h : (s.update_level level now).2 = none) :
    (s.update_level level now).1.is_on = s.is_on := by
  unfold SwitchStatus.update_level SwitchStatus.turn_on SwitchStatus.turn_off at *
  dsimp only at h ⊢
  split_ifs at h ⊢ with h1 h2 h3 <;> simp_all

lemma stateAfter_append (s : SwitchStatus) (xs ys : List (ℚ × ℤ)) :
    stateAfter s (xs ++ ys) = stateAfter (stateAfter s xs) ys := by
  simp [stateAfter, List.foldl_append]

/-- The threshold and timeout survive any input sequence. -/
lemma stateAfter_fields (s : SwitchStatus) (xs : List (ℚ × ℤ)) :
    (stateAfter s xs).threshold_db = s.threshold_db ∧
    (stateAfter s xs).timeout_s = s.timeout_s := by
  induction xs generalizing s with
  | nil => exact ⟨rfl, rfl⟩
  | cons x rest ih =>
    have h1 := ih (s.update_level x.1 x.2).1
    have h2 := update_level_fields s x.1 x.2
    exact ⟨h1.1.trans h2.1, h1.2.trans h2.2⟩

/-- Invariant of the freshly constructed controller: whenever the switch is on
after a run, there is a last at-or-above-threshold input; the trigger time is
its timestamp and every later input so far was strictly below threshold. -/
lemma trigger_invariant (p : ℚ) (tm t0 : ℤ) (xs : List (ℚ × ℤ))
    (h : (stateAfter (SwitchStatus.new p tm t0) xs).is_on = true) :
    ∃ j : ℕ, j < xs.length ∧
      p ≤ (xs.getD j (0, 0)).1 ∧
      (stateAfter (SwitchStatus.new p tm t0) xs).on_trigger_last =
        (xs.getD j (0, 0)).2 ∧
      ∀ i : ℕ, j < i → i < xs.length → (xs.getD i (0, 0)).1 < p := by
  induction xs using List.reverseRecOn with
  | nil => simp [stateAfter, SwitchStatus.new] at h
  | append_singleton xs x ih =>
    rw [stateAfter_append] at h ⊢
    have hstep : stateAfter (stateAfter (SwitchStatus.new p tm t0) xs) [x] =
        ((stateAfter (SwitchStatus.new p tm t0) xs).update_level x.1 x.2).1 := rfl
    rw [hstep] at h ⊢
    have hthr : (stateAfter (SwitchStatus.new p tm t0) xs).threshold_db = p :=
      (stateAfter_fields (SwitchStatus.new p tm t0) xs).1
    by_cases hab : (stateAfter (SwitchStatus.new p tm t0) xs).threshold_db ≤ x.1
    · obtain ⟨htrig, _⟩ :=
        update_level_above (stateAfter (SwitchStatus.new p tm t0) xs) x.1 x.2 hab
      refine ⟨xs.length, by simp, ?_, ?_, ?_⟩
      · rw [List.getD_append_right xs [x] (0, 0) xs.length le_rfl]
        simpa using hthr ▸ hab
      · rw [htrig, List.getD_append_right xs [x] (0, 0) xs.length le_rfl]
        simp
      · intro i hji hilen
        simp only [List.length_append, List.length_singleton] at hilen
        omega
    · obtain ⟨htrig, himpl⟩ :=
        update_level_below (stateAfter (SwitchStatus.new p tm t0) xs) x.1 x.2 hab
      obtain ⟨j, hj, hjp, hjtrig, hrun⟩ := ih (himpl h)
      refine ⟨j, by simp; omega, ?_, ?_, ?_⟩
      · rw [List.getD_append xs [x] (0, 0) j hj]
        exact hjp
      · rw [htrig, List.getD_append xs [x] (0, 0) j hj]
        exact hjtrig
      · intro i hji hilen
        simp only [List.length_append, List.length_singleton] at hilen
        rcases Nat.lt_or_ge i xs.length with hi | hi
        · rw [List.getD_append xs [x] (0, 0) i hi]
          exact hrun i hji hi
        · have hieq : i = xs.length := by omega
          subst hieq
          rw [List.getD_append_right xs [x] (0, 0) xs.length le_rfl]
          simpa using hthr ▸ not_le.mp hab

/-- Claim C5: over any input sequence with non-decreasing timestamps delivered
to a freshly constructed controller, an off event at step `k` happens only when
some earlier input `j` was at or above threshold, every input after `j` up to
and including `k` was strictly below threshold, and the time elapsed from input
`j` (the moment the timer was last armed) to input `k` exceeds the timeout;
input `j` being the latest above-threshold input is exactly the rearming the
claim describes. -/
theorem c5_off_requires_subthreshold_span (p : ℚ) (tm t0 : ℤ) (inputs : List (ℚ × ℤ))
    (k : ℕ) (hk : k < inputs.length)
    (hmono : timesMonotone inputs = true)
    (hoff : ((stateAfter (SwitchStatus.new p tm t0) (inputs.take k)).update_level
        (inputs.getD k (0, 0)).1 (inputs.getD k (0, 0)).2).2 = some false) :
    ∃ j : ℕ, j < k ∧ p ≤ (inputs.getD j (0, 0)).1 ∧
      (∀ i : ℕ, j < i → i ≤ k → (inputs.getD i (0, 0)).1 < p) ∧
      tm < (inputs.getD k (0, 0)).2 - (inputs.getD j (0, 0)).2 := by
  have hfields := stateAfter_fields (SwitchStatus.new p tm t0) (inputs.take k)
  obtain ⟨hlt, hon, htimeout, _⟩ := update_level_off_event _ _ _ hoff
  obtain ⟨j, hj, hjp, hjtrig, hrun⟩ := trigger_invariant p tm t0 (inputs.take k) hon
  have hlen : (inputs.take k).length = k := by
    simp only [List.length_take]
    omega
  rw [hlen] at hj hrun
  have htake : ∀ i : ℕ, i < k → (inputs.take k).getD i (0, 0) = inputs.getD i (0, 0) := by
    intro i hi
    simp [List.getD_eq_getElem?_getD, List.getElem?_take, hi]
  refine ⟨j, hj, ?_, ?_, ?_⟩
  · rw [← htake j hj]
    exact hjp
  · intro i hji hik
    rcases Nat.lt_or_ge i k with hi | hi
    · rw [← htake i hi]
      exact hrun i hji (hlen ▸ hi)
    · have hieq : i = k := by omega
      subst hieq
      calc (inputs.getD i (0, 0)).1 < _ := hlt
        _ = p := hfields.1.trans rfl
  · have htm : (stateAfter (SwitchStatus.new p tm t0) (inputs.take k)).timeout_s = tm :=
      hfields.2.trans rfl
    rw [htm, hjtrig, htake j hj] at htimeout
    linarith

/-- The last element of a cons, with default: the head only matters when the
tail is empty. -/
lemma getLast_getD_cons {α : Type} (l : List α) (a d : α) :
    (a :: l).getLast?.getD d = l.getLast?.getD a := by
  cases l with
  | nil => simp
  | cons b bs =>
    rw [List.getLast?_cons_cons]
    have hne : (b :: bs).getLast?.isSome := by
      simp [List.getLast?_isSome]
    obtain ⟨y, hy⟩ := Option.isSome_iff_exists.mp hne
    rw [hy]
    rfl

/-- From any state, the dispatcher-channel trace alternates, starts with the
negation of the current `is_on`, and the final `is_on` is the last boolean sent
(or the starting one if none was). -/
lemma run_alternation (s : SwitchStatus) (inputs : List (ℚ × ℤ)) :
    List.Chain' (fun a b : Bool => a ≠ b) (run s inputs).2 ∧
    (∀ e, (run s inputs).2.head? = some e → e = !s.is_on) ∧
    (run s inputs).1.is_on = (run s inputs).2.getLast?.getD s.is_on := by
  induction inputs generalizing s with
  | nil => simp [run]
  | cons x rest ih =>
    obtain ⟨ihc, ihh, ihl⟩ := ih (s.update_level x.1 x.2).1
    cases hev : (s.update_level x.1 x.2).2 with
    | none =>
      have hsame := update_level_no_event s x.1 x.2 hev
      simp only [run, hev, Option.toList_none, List.nil_append]
      refine ⟨ihc, fun e he => (ihh e he).trans (by rw [hsame]), ihl.trans (by rw [hsame])⟩
    | some b =>
      have hb : b = !s.is_on ∧ (s.update_level x.1 x.2).1.is_on = b := by
        cases b
        · obtain ⟨h1, h2, h3, h4⟩ := update_level_off_event s x.1 x.2 hev
          exact ⟨by rw [h2]; rfl, h4⟩
        · obtain ⟨h1, h2⟩ := update_level_on_event s x.1 x.2 hev
          exact ⟨by rw [h1]; rfl, h2⟩
      simp only [run, hev, Option.toList_some, List.singleton_append]
      refine ⟨?_, ?_, ?_⟩
      · rw [List.chain'_cons']
        refine ⟨fun y hy => ?_, ihc⟩
        have hy' := ihh y (by simpa using hy)
        rw [hy', hb.2, hb.1]
        simp
      · intro e he
        simp only [List.head?_cons, Option.some.injEq] at he
        subst he
        exact hb.1
      · rw [getLast_getD_cons, ihl, hb.2]

/-- Claim C10: from a freshly constructed `SwitchStatus` (off), the booleans
sent to the dispatcher channel strictly alternate, begin with `true` when any
are sent, and after the whole run `is_on` equals the last boolean sent, or
`false` when none was. -/
theorem c10_events_alternate_from_off (p : ℚ) (tm t0 : ℤ) (inputs : List (ℚ × ℤ)) :
    List.Chain' (fun a b : Bool => a ≠ b) (run (SwitchStatus.new p tm t0) inputs).2 ∧
    ((run (SwitchStatus.new p tm t0) inputs).2 = [] ∨
      (run (SwitchStatus.new p tm t0) inputs).2.head? = some true) ∧
    (run (SwitchStatus.new p tm t0) inputs).1.is_on =
      (run (SwitchStatus.new p tm t0) inputs).2.getLast?.getD false := by
  obtain ⟨hc, hh, hl⟩ := run_alternation (SwitchStatus.new p tm t0) inputs
  refine ⟨hc, ?_, by simpa [SwitchStatus.new] using hl⟩
  cases hev : (run (SwitchStatus.new p tm t0) inputs).2 with
  | nil => exact Or.inl rfl
  | cons e es =>
    right
    have he := hh e (by rw [hev]; rfl)
    simp [SwitchStatus.new] at he
    rw [he]
    rfl

/-- Claim C7: a single `update_level` call never modifies `threshold_db` or
`timeout_s`; with a monotone clock the trigger time never decreases; the
trigger time is reassigned only on an at-or-above-threshold level (and then to
`now`); and `is_on` changes only through the two spec transitions, each with
its event. -/
theorem c7_switch_state_invariants (s : SwitchStatus) (level : ℚ) (now : ℤ) :
    (s.update_level level now).1.threshold_db = s.threshold_db ∧
    (s.update_level level now).1.timeout_s = s.timeout_s ∧
    (s.on_trigger_last ≤ now →
      s.on_trigger_last ≤ (s.update_level level now).1.on_trigger_last) ∧
    ((s.update_level level now).1.on_trigger_last ≠ s.on_trigger_last →
      s.threshold_db ≤ level) ∧
    (s.threshold_db ≤ level → (s.update_level level now).1.on_trigger_last = now) ∧
    ((s.update_level level now).1.is_on ≠ s.is_on →
      (s.threshold_db ≤ level ∧ s.is_on = false ∧
        (s.update_level level now).1.is_on = true ∧
        (s.update_level level now).2 = some true) ∨
      (level < s.threshold_db ∧ s.is_on = true ∧
        s.timeout_s < now - s.on_trigger_last ∧
        (s.update_level level now).1.is_on = false ∧
        (s.update_level level now).2 = some false)) := by
  unfold SwitchStatus.update_level SwitchStatus.turn_on SwitchStatus.turn_off
  dsimp only
  split_ifs with h1 h2 h3 <;> simp_all [not_le]

/-- Concrete instantiation of claim C7's theorem: state off at threshold 0,
timeout 5, trigger time 0, level 1 arriving at time 2. -/
theorem c7_witness :
    ((SwitchStatus.new 0 5 0).update_level 1 2).1.threshold_db =
      (SwitchStatus.new 0 5 0).threshold_db ∧
    ((SwitchStatus.new 0 5 0).update_level 1 2).1.timeout_s =
      (SwitchStatus.new 0 5 0).timeout_s ∧
    ((SwitchStatus.new 0 5 0).on_trigger_last ≤ (2 : ℤ) →
      (SwitchStatus.new 0 5 0).on_trigger_last ≤
        ((SwitchStatus.new 0 5 0).update_level 1 2).1.on_trigger_last) ∧
    (((SwitchStatus.new 0 5 0).update_level 1 2).1.on_trigger_last ≠
        (SwitchStatus.new 0 5 0).on_trigger_last →
      (SwitchStatus.new 0 5 0).threshold_db ≤ 1) ∧
    ((SwitchStatus.new 0 5 0).threshold_db ≤ 1 →
      ((SwitchStatus.new 0 5 0).update_level 1 2).1.on_trigger_last = 2) ∧
    (((SwitchStatus.new 0 5 0).update_level 1 2).1.is_on ≠
        (SwitchStatus.new 0 5 0).is_on →
      ((SwitchStatus.new 0 5 0).threshold_db ≤ 1 ∧
        (SwitchStatus.new 0 5 0).is_on = false ∧
        ((SwitchStatus.new 0 5 0).update_level 1 2).1.is_on = true ∧
        ((SwitchStatus.new 0 5 0).update_level 1 2).2 = some true) ∨
      ((1 : ℚ) < (SwitchStatus.new 0 5 0).threshold_db ∧
        (SwitchStatus.new 0 5 0).is_on = true ∧
        (SwitchStatus.new 0 5 0).timeout_s <
          (2 : ℤ) - (SwitchStatus.new 0 5 0).on_trigger_last ∧
        ((SwitchStatus.new 0 5 0).update_level 1 2).1.is_on = false ∧
        ((SwitchStatus.new 0 5 0).update_level 1 2).2 = some false)) :=
  c7_switch_state_invariants (SwitchStatus.new 0 5 0) 1 2

/-- Concrete instantiation of claim C5's theorem on `c5Inputs` with threshold 0,
timeout 5, construction time 0: the hypotheses hold and the off event at step 2
is preceded by the above-threshold input at step 0. -/
theorem c5_witness :
    (2 < c5Inputs.length ∧
      timesMonotone c5Inputs = true ∧
      ((stateAfter (SwitchStatus.new 0 5 0) (c5Inputs.take 2)).update_level
        (c5Inputs.getD 2 (0, 0)).1 (c5Inputs.getD 2 (0, 0)).2).2 = some false) ∧
    ∃ j : ℕ, j < 2 ∧ (0 : ℚ) ≤ (c5Inputs.getD j (0, 0)).1 ∧
      (∀ i : ℕ, j < i → i ≤ 2 → (c5Inputs.getD i (0, 0)).1 < 0) ∧
      (5 : ℤ) < (c5Inputs.getD 2 (0, 0)).2 - (c5Inputs.getD j (0, 0)).2 :=
  ⟨⟨by decide, by decide, by decide⟩,
    c5_off_requires_subthreshold_span 0 5 0 c5Inputs 2 (by decide) (by decide)
      (by decide)⟩

/-- Claim C6: when every spawn succeeds, the worker of `SwitchStatus::start`
executes the commands of the queued events strictly in arrival order with no
deduplication or coalescing, running each spawned command to completion (its
exit step) before dequeuing the next event — so for `[true, false, true]` the
trace is spawn on, exit on, spawn off, exit off, spawn on, exit on. -/
theorem c6_worker_fifo_run_to_completion {α : Type} (exitCode : α → Int)
    (cmd_on cmd_off : α) (events : List Bool) :
    runWorker (fun c => some (exitCode c)) cmd_on cmd_off events =
      events.flatMap (fun e =>
        [WorkerStep.spawned (if e then cmd_on else cmd_off),
         WorkerStep.exited (if e then cmd_on else cmd_off)
           (exitCode (if e then cmd_on else cmd_off))]) := by
  induction events with
  | nil => rfl
  | cons e rest ih => simp [runWorker, ih]

/-- Counterexample to claim C4 as stated: queue `[true, false]` with a failing
spawn.  The worker dies on the first event and the trace records nothing for
the second — but a subsequent producer-side `send(..).unwrap()` on the now
disconnected channel is a panic (`Except.error`), not a silent drop leaving the
rest of the process unaffected. -/
theorem c4_send_after_worker_death_counterexample :
    runWorker (fun _ : ℤ => (none : Option Int)) 1 0 [true, false] =
      [WorkerStep.panicked] ∧
    sendUnwrap false true = Except.error () :=
  ⟨rfl, rfl⟩

/-- Claim C4 as amended: a spawn failure terminates the worker, which processes
no further events (the trace after a successful first command and a failing
second stops at the panic, recording nothing for `rest`); a command that starts
and exits with an arbitrary (hence possibly nonzero) code is not an error and
the worker continues to the next event; but the producer's next emitted event
panics on the closed channel instead of being silently dropped. -/
theorem c4_amended_spawn_failure_policy {α : Type} (spawnResult : α → Option Int)
    (cmd_on cmd_off : α) (e1 e2 : Bool) (rest : List Bool) (code : Int) (v : Bool)
    (h1 : spawnResult (if e1 then cmd_on else cmd_off) = some code)
    (h2 : spawnResult (if e2 then cmd_on else cmd_off) = none) :
    runWorker spawnResult cmd_on cmd_off (e1 :: e2 :: rest) =
      [WorkerStep.spawned (if e1 then cmd_on else cmd_off),
       WorkerStep.exited (if e1 then cmd_on else cmd_off) code,
       WorkerStep.panicked] ∧
    sendUnwrap false v = Except.error () := by
  refine ⟨?_, rfl⟩
  simp [runWorker, h1, h2]

/-- Concrete instantiation of claim C4's amended theorem: `cmd_on` is command
`1`, which starts and exits with the nonzero code 1; `cmd_off` is command `0`,
whose spawn fails; events `[true, false, true]`. -/
theorem c4_amended_witness :
    runWorker (fun c : ℤ => if c = 1 then (some 1 : Option Int) else none) 1 0
        [true, false, true] =
      [WorkerStep.spawned 1, WorkerStep.exited 1 1, WorkerStep.panicked] ∧
    sendUnwrap false true = Except.error () := by
  have h := c4_amended_spawn_failure_policy
    (fun c : ℤ => if c = 1 then (some 1 : Option Int) else none) 1 0 true false
    [true] 1 true (by decide) (by decide)
  simpa using h

/-- Claim C2, evaluated at the failing inputs.  16-bit path, one channel,
channel 1 selected, frame `[1000]`: the claimed mean is `1000` but the code
yields `0` — the i16-range average is fed to the `i32 → i16` sample conversion,
an arithmetic shift right by 16 bits, which crushes it.  32-bit path, two
channels with channel 2 selected, frame `[0, 10]`: the claimed mean of the
selected channels is `10` but the code sums ALL channels and divides by the
maximum selected index, yielding `5`. -/
theorem c2_mixer_code_eval :
    deinterleave16 [1] 1 1 [1000] = [0] ∧ (0 : ℤ) ≠ 1000 ∧
    deinterleave32 2 1 [0, 10] = [5] ∧ (5 : ℤ) ≠ 10 := by decide

/-- Counterexample to claim C3 as stated: with a 2-sample window and two
blocks `[1]` then `[1]`, the window contents do not carry over — the loop
hands the second block the pristine `[0, 0]` clone, not the `[0, 1]` the first
block's processing produced. -/
theorem c3_window_reset_counterexample :
    mainLoopWindows [0, 0] [[1], [1]] = [[0, 0], [0, 0]] ∧
    persistentWindows [0, 0] [[1], [1]] = [[0, 0], [0, 1]] ∧
    mainLoopWindows [0, 0] [[1], [1]] ≠ persistentWindows [0, 0] [[1], [1]] := by
  refine ⟨rfl, ?_, ?_⟩ <;>
    norm_num [persistentWindows, mainLoopWindows, windowAfterBlock, windowPush]

/-- Claim C3 as amended: the window buffer is created once at startup, but each
processed block receives a fresh clone of that pristine buffer (and a freshly
constructed detector), so window contents are reset — never carried over —
between blocks. -/
theorem c3_amended_each_block_gets_pristine_window (w0 : List ℚ)
    (blocks : List (List ℚ)) :
    mainLoopWindows w0 blocks = blocks.map (fun _ => w0) := by
  induction blocks with
  | nil => rfl
  | cons b rest ih => simp [mainLoopWindows, ih]

/-- The envelope iterator yields one frame per input sample, so it is nonempty
on a nonempty block. -/
lemma envFrames_ne_nil (gA gR : ℝ) (st : List ℝ × ℝ) (l : List ℝ) (h : l ≠ []) :
    envFrames gA gR st l ≠ [] := by
  cases l with
  | nil => exact absurd rfl h
  | cons x rest => simp [envFrames]

/-- Counterexample to claim C8 as stated: on an empty input block the
processing path does not complete — `until_exhausted().last()` is `None` and
the `unwrap` panics, modelled as `process_buf` returning `none`. -/
theorem c8_empty_block_panics : process_buf 0 0 [0, 0] 0 [] = none := rfl

/-- Claim C8 as amended: for every non-empty input block the per-block
envelope processing path completes and produces a value (`process_buf` is
`some`); an empty block panics on the `unwrap` (the wav front end guards
against it by breaking out of its loop first); and the degenerate empty window
has RMS `0` rather than an error. -/
theorem c8_amended_nonempty_total (gA gR : ℝ) (w0 : List ℝ) (held0 : ℝ)
    (rec_buf : List ℝ) (h : rec_buf ≠ []) :
    (process_buf gA gR w0 held0 rec_buf).isSome = true ∧ windowRms [] = 0 := by
  constructor
  · exact List.getLast?_isSome.mpr (envFrames_ne_nil gA gR (w0, held0) rec_buf h)
  · simp [windowRms]

/-- Concrete instantiation of claim C8's amended theorem on the one-sample
block `[1]`. -/
theorem c8_witness :
    ([1] : List ℝ) ≠ [] ∧
    ((process_buf 0 0 [] 0 [1]).isSome = true ∧ windowRms [] = 0) :=
  ⟨by simp, c8_amended_nonempty_total 0 0 [] 0 [1] (by simp)⟩

/-- Claim C9: for positive amplitude `to_db` is `20 * log10`, the round trip
`10 ^ (db / 20)` recovers the amplitude exactly in the real model (hence
within floating-point tolerance), and `db(0)` is the finite very large
negative sentinel `-1000`, an ordinary real number against which comparisons
are well-defined. -/
theorem c9_to_db_spec (a : ℝ) (ha : 0 < a) :
    to_db a = 20 * Real.logb 10 a ∧
    (10 : ℝ) ^ (to_db a / 20) = a ∧
    to_db 0 = db_sentinel ∧ db_sentinel = -1000 := by
  refine ⟨if_pos ha, ?_, if_neg (lt_irrefl 0), rfl⟩
  rw [to_db, if_pos ha, mul_div_cancel_left₀ _ (by norm_num : (20 : ℝ) ≠ 0)]
  exact Real.rpow_logb (by norm_num) (by norm_num) ha

/-- Concrete instantiation of claim C9's theorem at amplitude `1`. -/
theorem c9_witness :
    (0 : ℝ) < 1 ∧
    (to_db 1 = 20 * Real.logb 10 1 ∧ (10 : ℝ) ^ (to_db 1 / 20) = 1 ∧
      to_db 0 = db_sentinel ∧ db_sentinel = -1000) :=
  ⟨one_pos, c9_to_db_spec 1 one_pos⟩

end SilentCmd
